import Mathlib

/-!
Shallow embedding of the fort-gym orchestration core and proofs about it.

The definitions below are translated from the Python sources:
  * `fort_gym/bench/run/storage.py`   (RunRegistry: recovery, events, score metadata)
  * `fort_gym/bench/api/rate_limit.py` (`_TokenBucket`, `RateLimiter`)
  * `fort_gym/bench/api/routes_step.py` (interactive step admission)
  * `fort_gym/bench/run/jobs.py`       (JobRegistry scheduling)
  * `fort_gym/bench/run/runner.py`     (`run_once` batch step loop)

Machine integers are modelled as `Int`/`Nat`; Python floats as `ℚ` (exact
arithmetic; all constants involved are exactly representable); dictionaries as
association lists; exceptions as explicit outcome values.
-/

namespace FortGym

/-- Untyped Python values, as far as the orchestration core inspects them:
the run loop only asks whether the agent's output is a `dict`/`list` and which
keys a `dict` carries; event payloads carry nested JSON-like data. -/
inductive PyVal where
  | pnone
  | pbool (b : Bool)
  | pint (n : Int)
  | pfloat (q : ℚ)
  | pstr (s : String)
  | plist (xs : List PyVal)
  | pdict (entries : List (String × PyVal))

/-- `isinstance(v, dict)`. -/
def PyVal.isDict : PyVal → Bool
  | .pdict _ => true
  | _ => false

/-- `isinstance(v, list)`. -/
def PyVal.isList : PyVal → Bool
  | .plist _ => true
  | _ => false

/-- `k in v` for a dict `v` (`False` on non-dicts, matching how the runner
only evaluates it after the dict check). -/
def PyVal.hasKey (v : PyVal) (k : String) : Bool :=
  match v with
  | .pdict entries => entries.any (fun kv => kv.1 == k)
  | _ => false

/-- `v.get(k)` on a dict, `None`-as-`none` when absent or not a dict. -/
def PyVal.get? (v : PyVal) (k : String) : Option PyVal :=
  match v with
  | .pdict entries => (entries.find? (fun kv => kv.1 == k)).map (·.2)
  | _ => none

/-- Python truthiness for the values above (`bool(v)`). -/
def PyVal.truthy : PyVal → Bool
  | .pnone => false
  | .pbool b => b
  | .pint n => n != 0
  | .pfloat q => q != 0
  | .pstr s => s != ""
  | .plist xs => !xs.isEmpty
  | .pdict entries => !entries.isEmpty

/-- `float(v)` for the value shapes score events actually carry (numbers and
booleans); other shapes are treated as unconvertible, which is the
`except (TypeError, ValueError)` branch of `RunRegistry._update_score`. -/
def pyFloat? : PyVal → Option ℚ
  | .pint n => some (n : ℚ)
  | .pfloat q => some q
  | .pbool b => some (if b then 1 else 0)
  | _ => none

/-- Read the first binding of `k` in an association list (Python
`d.get(k)`). -/
def getAssoc? {α β : Type} [BEq α] (k : α) : List (α × β) → Option β
  | [] => none
  | (k', v) :: rest => if k' == k then some v else getAssoc? k rest

/-- Update the first binding of `k` in an association list, appending when the
key is absent (Python `d[k] = v`). -/
def setAssoc {α β : Type} [BEq α] (k : α) (v : β) : List (α × β) → List (α × β)
  | [] => [(k, v)]
  | (k', v') :: rest =>
      if k' == k then (k, v) :: rest else (k', v') :: setAssoc k v rest

/-- One row of the `runs` table, restricted to the columns the claims touch
(`storage.py`, `_ensure_schema`). -/
structure RunRow where
  run_id : String
  status : String
  step : Nat
  started_at : Option String
  ended_at : Option String
  last_score : Option ℚ
  milestones : Option PyVal

/-- Effect of `RunRegistry._mark_interrupted_runs` on a single row: the SQL
`UPDATE runs SET status = 'failed', ended_at = COALESCE(ended_at, now)
WHERE status = 'running' AND ended_at IS NULL` (storage.py lines 193-203),
applied on first connection to the backing store. -/
def markInterruptedRow (now : String) (r : RunRow) : RunRow :=
  if r.status = "running" ∧ r.ended_at = none then
    { r with
      status := "failed",
      ended_at := some (r.ended_at.getD now) }
  else r

/-- The table-wide update: the `UPDATE` touches every matching row. -/
def markInterruptedRuns (now : String) (rows : List RunRow) : List RunRow :=
  rows.map (markInterruptedRow now)

/-- An event envelope `{"t": ..., "data": ...}` as passed to
`RunRegistry.append_event`. -/
structure Evt where
  t : String
  data : PyVal

/-- The in-memory half of `RunRegistry`: per-run bounded event queues
(`self._queues`) plus the persisted rows (`runs` table). The asyncio loop
handoff (`loop.call_soon_threadsafe(push)`) is modelled as an immediate push:
both branches of `append_event` execute the same `push()` closure. -/
structure RegState where
  rows : List RunRow
  queues : List (String × List Evt)

/-- Queue capacity fixed at run creation: `asyncio.Queue(maxsize=512)`
(storage.py line 223). -/
def queueMaxsize : Nat := 512

/-- The `push()` closure of `append_event`: `put_nowait`, and on `QueueFull`
drop the oldest entry (`get_nowait`) and retry; on `QueueEmpty` give up. -/
def pushBounded (cap : Nat) (q : List Evt) (p : Evt) : List Evt :=
  if q.length < cap then q ++ [p]
  else
    match q with
    | [] => q
    | _ :: rest => rest ++ [p]

/-- Extraction of the score value in `append_event`:
`data.get("total_score")` else `data.get("score")` else `data.get("value")`. -/
def scoreValueOf (data : PyVal) : Option PyVal :=
  match data.get? "total_score" with
  | some v => some v
  | none =>
      match data.get? "score" with
      | some v => some v
      | none => data.get? "value"

/-- `RunRegistry._update_score`: coerce the score to float, keep milestones
when present, and update the row's `last_score`/`milestones_json` columns;
a no-op when neither field is usable. -/
def updateScore (s : RegState) (runId : String)
    (scoreValue : Option PyVal) (milestones : Option PyVal) : RegState :=
  if (scoreValue.bind pyFloat?).isNone ∧ milestones.isNone then s
  else
    { s with
      rows := s.rows.map (fun r =>
        if r.run_id = runId then
          { r with
            last_score :=
              match scoreValue.bind pyFloat? with
              | some q => some q
              | none => r.last_score,
            milestones :=
              match milestones with
              | some m => some m
              | none => r.milestones }
        else r) }

/-- Defaulting of the extracted payload data: `data = payload["data"] or {}`. -/
def scoreData (e : Evt) : PyVal :=
  if e.data.truthy then e.data else .pdict []

/-- `RunRegistry.append_event` (storage.py lines 339-373): look up the run's
queue; when no queue is bound return immediately (before the score branch);
otherwise opportunistically extract score metadata from `score` events, then
push the payload into the bounded queue, evicting the oldest entry when full.
The queue object is mutated in place, so the id-to-queue table keeps its
binding with the new contents. -/
def append_event (s : RegState) (runId : String) (event : Evt) : RegState :=
  match getAssoc? runId s.queues with
  | none => s
  | some q =>
      { (if event.t = "score" then
          updateScore s runId (scoreValueOf (scoreData event))
            ((scoreData event).get? "milestones")
         else s) with
        queues := setAssoc runId (pushBounded queueMaxsize q event) s.queues }

/-- `_TokenBucket` (rate_limit.py). Times and token counts are Python floats,
modelled as exact rationals. -/
structure TokenBucket where
  capacity : ℚ
  tokens : ℚ
  refill_per_s : ℚ
  updated_at : ℚ

/-- `_TokenBucket.refill`: add `elapsed * refill_per_s` tokens, clamped to
capacity, and record the refill time; skipped when no time has elapsed
(`elapsed = max(0.0, now - self.updated_at)`). -/
def TokenBucket.refill (b : TokenBucket) (now : ℚ) : TokenBucket :=
  if max 0 (now - b.updated_at) ≤ 0 then b
  else
    { b with
      tokens := min b.capacity
        (b.tokens + max 0 (now - b.updated_at) * b.refill_per_s),
      updated_at := now }

/-- `_TokenBucket.take`: refill, then withdraw `amount` tokens if available;
otherwise report the time needed to accumulate the shortfall, floored at
`0.1` seconds (or `60.0` when the bucket never refills). Returns the granted
flag, the retry hint, and the bucket after the call. -/
def TokenBucket.take (b : TokenBucket) (amount now : ℚ) : (Bool × ℚ) × TokenBucket :=
  if amount ≤ (b.refill now).tokens then
    ((true, 0), { b.refill now with tokens := (b.refill now).tokens - amount })
  else
    ((false,
      max (1/10)
        (if 0 < (b.refill now).refill_per_s then
          (amount - (b.refill now).tokens) / (b.refill now).refill_per_s
         else 60)),
     b.refill now)

/-- The `RateLimiter._buckets` table, keyed by `(bucket_name, client_id)`. -/
def RLState : Type := List ((String × String) × TokenBucket)

/-- A bucket as first created for a key: full (`tokens = capacity`) and
refilled `now`. -/
def freshBucket (capacity : Int) (refill_per_s now : ℚ) : TokenBucket :=
  { capacity := (capacity : ℚ), tokens := (capacity : ℚ),
    refill_per_s := refill_per_s, updated_at := now }

/-- Bucket selection in `RateLimiter.allow`: reuse the stored bucket unless
it is missing or its configured capacity/rate changed, in which case it is
replaced by a fresh one. -/
def bucketFor (st : RLState) (key : String × String)
    (capacity : Int) (refill_per_s now : ℚ) : TokenBucket :=
  match getAssoc? key st with
  | none => freshBucket capacity refill_per_s now
  | some b =>
      if b.capacity ≠ (capacity : ℚ) ∨ b.refill_per_s ≠ refill_per_s then
        freshBucket capacity refill_per_s now
      else b

/-- `RateLimiter.allow` (rate_limit.py lines 71-85): fetch or (re)create the
bucket for the `(bucket_name, client_id)` key, take exactly one token, and
store the updated bucket. `now` is the `time.monotonic()` reading at the
call. -/
def RateLimiter.allow (st : RLState) (bucket client : String)
    (capacity : Int) (refill_per_s : ℚ) (now : ℚ) : (Bool × ℚ) × RLState :=
  (((bucketFor st (bucket, client) capacity refill_per_s now).take 1 now).1,
   setAssoc (bucket, client)
     ((bucketFor st (bucket, client) capacity refill_per_s now).take 1 now).2
     st)

/-- The per-run interactive step context (`routes_step.py`, `StepContext`),
restricted to the fields the admission gate reads or writes. -/
structure StepContext where
  inflight : Bool
  completed : Bool
  max_steps : Nat
  step_idx : Nat
  last_step_ts_ms : Option Int
  reward_cum : ℚ

/-- Outcome of the admission gate: either the step proceeds, or an
`HTTPException(status_code, detail)` is raised. -/
inductive AdmitResult where
  | granted
  | rejected (code : Nat) (detail : String)
deriving DecidableEq

/-- The `with context.lock:` admission block of `step_endpoint`
(routes_step.py lines 122-131): reject completed runs (400), reject when a
step is already in flight (429), reject pacing violations (429); otherwise
mark the step in flight and admit the request. Returns the (possibly
updated) context together with the outcome. Python's
`context.max_steps and context.step_idx >= context.max_steps` truthiness is
`max_steps ≠ 0 ∧ max_steps ≤ step_idx`. -/
def stepAdmit (ctx : StepContext) (now_ms min_period_ms : Int) :
    StepContext × AdmitResult :=
  if ctx.completed ∨ (ctx.max_steps ≠ 0 ∧ ctx.max_steps ≤ ctx.step_idx) then
    ({ ctx with completed := true }, .rejected 400 "Run has already completed.")
  else if ctx.inflight then
    (ctx, .rejected 429 "Step already in progress.")
  else
    match ctx.last_step_ts_ms with
    | some ts =>
        if now_ms - ts < min_period_ms then
          (ctx, .rejected 429 "Rate limit exceeded.")
        else ({ ctx with inflight := true }, .granted)
    | none => ({ ctx with inflight := true }, .granted)

/-- The whole interactive step request: every state mutation past admission
(environment calls, counter updates, the trace append at routes_step.py line
257) happens inside the endpoint body, which here is an arbitrary `body`
function — it runs only when the gate admits the request, and the `finally:`
block clears the in-flight flag afterwards. On rejection the raised
`HTTPException` propagates before the body, leaving context and trace as the
gate left them. -/
def stepRequest (body : StepContext → List PyVal → StepContext × List PyVal)
    (ctx : StepContext) (trace : List PyVal) (now_ms min_period_ms : Int) :
    StepContext × List PyVal × AdmitResult :=
  match stepAdmit ctx now_ms min_period_ms with
  | (ctx', .rejected code detail) => (ctx', trace, .rejected code detail)
  | (ctx', .granted) =>
      let (ctx'', trace') := body ctx' trace
      ({ ctx'' with inflight := false }, trace', .granted)

/-!
Job scheduler (`jobs.py`, `JobRegistry.start`). One job's shared state is the
`JobInfo` record plus the `started`/`completed` counters; every mutation in
the source happens under `self._lock`, so an execution is an interleaving of
the atomic locked blocks. `finished` is a ghost counter of workers whose
thread has run to completion (successfully or not); the code does not store
it, but it defines the number of runs in flight: `started - finished`.
-/
structure JobState where
  n : Nat
  parallelism : Nat
  status : String
  run_ids : List String
  started : Nat
  completed : Nat
  finished : Nat

/-- `JobRegistry.create`: fresh job with `status="pending"`, no runs, and
`parallelism = max(1, parallelism)`. -/
def JobState.create (n parallelism : Nat) : JobState :=
  { n := n, parallelism := max 1 parallelism, status := "pending",
    run_ids := [], started := 0, completed := 0, finished := 0 }

/-- Atomic transitions of one job, as the locked blocks of `JobRegistry.start`
interleave. A worker's result is modelled as `Except Unit String`: `.error`
is `make_run` raising (`failed = True`); `.ok rid` is a returned run id, so
`run_id is None` is false and the worker takes the success branch — note the
source tests `run_id is None`, not Python falsiness, so an empty-string id
still counts as success. -/
inductive JobStep : JobState → JobState → Prop where
  /-- The locked prologue of `start`: a pending job becomes running. -/
  | startJob (s : JobState) :
      s.status = "pending" →
      JobStep s { s with status := "running" }
  /-- The locked body of `launch_next` when it actually launches: the job is
  not finished, fewer than `n` workers were started, and fewer than
  `parallelism` are in flight by the code's own accounting
  (`running = started - completed`). -/
  | launch (s : JobState) :
      s.status ≠ "failed" → s.status ≠ "completed" →
      s.started < s.n → s.started - s.completed < s.parallelism →
      JobStep s { s with started := s.started + 1 }
  /-- The locked epilogue of a worker whose `make_run` returned an id: append
  it, bump `completed`, and mark the job completed when the target is
  reached. (The source runs this block regardless of the current status.) -/
  | workerSuccess (s : JobState) (rid : String) :
      s.finished < s.started →
      JobStep s
        { s with
          run_ids := s.run_ids ++ [rid],
          completed := s.completed + 1,
          finished := s.finished + 1,
          status := if s.n ≤ s.completed + 1 then "completed" else s.status }
  /-- The locked epilogue of a worker whose `make_run` raised: the job is
  marked failed and the worker triggers no further launch. -/
  | workerFailure (s : JobState) :
      s.finished < s.started →
      JobStep s { s with status := "failed", finished := s.finished + 1 }

/-- Reachability from the freshly created job through any interleaving of
`start`, `launch_next`, and worker-completion blocks. -/
def JobReach (n parallelism : Nat) (s : JobState) : Prop :=
  Relation.ReflTransGen JobStep (JobState.create n parallelism) s

/-!
Batch run loop (`runner.py`, `run_once`, dfhack backend with registry bound).
The external collaborators — environment observe/apply/advance (each retried
once on `DFHackError` by `call_with_retry`), the agent's `decide`, and the
action parser/validator — are oracles scripted per step.
-/

/-- Scripted external outcomes for one iteration of the step loop. The two
booleans per environment call say whether the first and the (single) retried
attempt succeed; `decideRaises` scripts `agent.decide` raising instead of
returning; `raw_action` is what it returns otherwise; `parseOk` and `valid`
script `parse_action` / `validate_action` on that action. -/
structure StepOracle where
  observe1 : Bool
  observe2 : Bool
  decideRaises : Bool
  raw_action : PyVal
  parseOk : Bool
  valid : Bool
  apply1 : Bool
  apply2 : Bool
  advance1 : Bool
  advance2 : Bool

/-- One line of `trace.jsonl`, reduced to the fields the claims are about:
the `step` index and the `validation.valid` flag (rejected records carry
`valid = false`; full records carry the validator's verdict, `true` on the
path that reaches execution). -/
structure TraceLine where
  step : Nat
  valid : Bool
deriving DecidableEq

/-- How one loop iteration ends. -/
inductive IterOut where
  /-- A record was written and the loop continues (`continue` or fall-through
  to the next step). `valid` is the record's validation flag. -/
  | wrote (valid : Bool)
  /-- `call_with_retry` exhausted both attempts: status is set to `failed`
  and the loop `break`s without writing a record. -/
  | fatalBreak
  /-- An exception other than the caught `DFHackError`s escapes the loop
  (the `raise TypeError` for a non-dict action): no record is written and
  the outer `except Exception` handler takes over. -/
  | raised
deriving DecidableEq

/-- Control flow of one iteration of the `for step in range(max_steps)` body
(runner.py lines 165-334), in source order: observe with one retry; decide;
`TypeError` on a non-dict action; invalid-shape rejection for a list or an
`actions`/`plan` dict; `parse_action` rejection; `validate_action`
rejection; apply with one retry; advance with one retry; full record. -/
def stepIter (o : StepOracle) : IterOut :=
  if !o.observe1 && !o.observe2 then .fatalBreak
  else if o.decideRaises then .raised
  else if !o.raw_action.isDict then .raised
  else if o.raw_action.isList || o.raw_action.hasKey "actions"
      || o.raw_action.hasKey "plan" then .wrote false
  else if !o.parseOk then .wrote false
  else if !o.valid then .wrote false
  else if !o.apply1 && !o.apply2 then .fatalBreak
  else if !o.advance1 && !o.advance2 then .fatalBreak
  else .wrote o.valid

/-- How the whole loop ends. -/
inductive LoopEnd where
  /-- All scripted steps ran (`range(max_steps)` exhausted). -/
  | finished
  /-- A second consecutive transient failure broke out of the loop. -/
  | fatalBreak
  /-- An exception escaped the loop body. -/
  | raised
deriving DecidableEq

/-- The loop from step index `i` over the remaining scripted steps: the trace
lines written (in order) and how the loop ended. -/
def runSteps (i : Nat) : List StepOracle → List TraceLine × LoopEnd
  | [] => ([], .finished)
  | o :: rest =>
      match stepIter o with
      | .fatalBreak => ([], .fatalBreak)
      | .raised => ([], .raised)
      | .wrote v =>
          let (t, e) := runSteps (i + 1) rest
          (⟨i, v⟩ :: t, e)

/-- Observable result of `run_once`: the persisted trace, the sequence of
`status` values passed to `registry.set_status` (in order), and whether the
function re-raised. -/
structure RunResult where
  trace : List TraceLine
  statuses : List String
  raised : Bool
deriving DecidableEq

/-- `run_once` over a scripted environment/agent (runner.py lines 65-367):
mark the run `running`; execute the loop for `max_steps` iterations; on a
fatal break the loop body has already set `failed`; after the `with` block
the function unconditionally sets `completed` and writes the summary; an
escaped exception instead hits the `except Exception` handler, which sets
`failed` and re-raises. -/
def run_once (script : List StepOracle) (max_steps : Nat) : RunResult :=
  let (trace, e) := runSteps 0 (script.take max_steps)
  match e with
  | .finished => ⟨trace, ["running", "completed"], false⟩
  | .fatalBreak => ⟨trace, ["running", "failed", "completed"], false⟩
  | .raised => ⟨trace, ["running", "failed"], true⟩

/-- The run's status on record once `run_once` has returned or raised: the
last status written wins. -/
def RunResult.finalStatus (r : RunResult) : String :=
  r.statuses.getLast?.getD "pending"

/-- A step whose agent output takes the invalid-shape branch of the run loop:
observation succeeds and `decide` returned a dict carrying an `actions` or
`plan` key. -/
def shapeInvalid (o : StepOracle) : Prop :=
  (o.observe1 = true ∨ o.observe2 = true) ∧
  o.decideRaises = false ∧
  o.raw_action.isDict = true ∧
  (o.raw_action.hasKey "actions" = true ∨ o.raw_action.hasKey "plan" = true)

/-- State invariant of the job scheduler, maintained by every locked block of
`JobRegistry.start`. -/
def JobInv (s : JobState) : Prop :=
  1 ≤ s.parallelism ∧
  s.run_ids.length = s.completed ∧
  s.completed ≤ s.finished ∧
  s.finished ≤ s.started ∧
  s.started ≤ s.n ∧
  s.started ≤ s.completed + s.parallelism ∧
  (s.status = "completed" → s.completed = s.n) ∧
  (s.status = "failed" → s.completed + 1 ≤ s.finished)

section Theorems

/-- The update written by `setAssoc` is what a subsequent lookup of the same
key returns. -/
theorem getAssoc?_setAssoc {α β : Type} [BEq α] [LawfulBEq α]
    (k : α) (v : β) (l : List (α × β)) :
    getAssoc? k (setAssoc k v l) = some v := by
  induction l with
  | nil => simp [setAssoc, getAssoc?]
  | cons kv rest ih =>
      obtain ⟨k', v'⟩ := kv
      cases h : k' == k with
      | true => simp [setAssoc, h, getAssoc?]
      | false => simp [setAssoc, h, getAssoc?, ih]

/-- The score-metadata side effect of `append_event` never touches the
in-memory queues. -/
theorem updateScore_queues (s : RegState) (runId : String)
    (sv ms : Option PyVal) : (updateScore s runId sv ms).queues = s.queues := by
  unfold updateScore
  split <;> rfl

/-- Trace lines produced from step index `i` carry exactly the indices
`i, i+1, ...` in order. -/
theorem runSteps_map_step (l : List StepOracle) (i : Nat) :
    (runSteps i l).1.map TraceLine.step = List.range' i (runSteps i l).1.length := by
  induction l generalizing i with
  | nil => simp [runSteps]
  | cons o rest ih =>
      unfold runSteps
      cases h : stepIter o with
      | fatalBreak => simp
      | raised => simp
      | wrote v => simpa [List.range'] using ih (i + 1)

/-- The loop writes at most one line per scripted step. -/
theorem runSteps_length_le (l : List StepOracle) (i : Nat) :
    (runSteps i l).1.length ≤ l.length := by
  induction l generalizing i with
  | nil => simp [runSteps]
  | cons o rest ih =>
      unfold runSteps
      cases h : stepIter o with
      | fatalBreak => simp
      | raised => simp
      | wrote v => simpa using Nat.succ_le_succ (ih (i + 1))

/-- C5: for every run executed by `run_once`, whatever mix of validated,
rejected, and retried steps it contains and however it terminates (max_steps
reached, fatal environment failure, or raised exception), the sequence of
`step` values in the persisted trace is exactly `0, 1, ..., k` with no gaps
and no repeats — i.e. the trace's step column is `List.range` of its length —
written in step order, with at most one line per loop iteration. -/
theorem C5_trace_steps_contiguous (script : List StepOracle) (max_steps : Nat) :
    (run_once script max_steps).trace.map TraceLine.step =
      List.range (run_once script max_steps).trace.length ∧
    (run_once script max_steps).trace.length ≤ max_steps := by
  have htrace : (run_once script max_steps).trace =
      (runSteps 0 (script.take max_steps)).1 := by
    unfold run_once
    rcases runSteps 0 (script.take max_steps) with ⟨t, e⟩
    cases e <;> rfl
  constructor
  · rw [htrace]
    simpa [List.range_eq_range'] using runSteps_map_step (script.take max_steps) 0
  · rw [htrace]
    calc (runSteps 0 (script.take max_steps)).1.length
        ≤ (script.take max_steps).length := runSteps_length_le _ 0
      _ ≤ max_steps := by simp

/-- C1 (failing input): a dfhack-backed run whose `observe` raises a
`DFHackError` on both the first attempt and the single retry of step 0. The
loop body sets the run's status to `failed` and breaks without writing a
record — but `run_once` then falls through to the unconditional
post-loop `set_status(status="completed")` (runner.py lines 336-341), so the
status sequence recorded in the registry is `running, failed, completed` and
the run's final persisted status is `completed`, not `failed`. -/
theorem C1_second_observe_failure_overwritten_to_completed :
    run_once
        [{ observe1 := false, observe2 := false, decideRaises := false,
           raw_action := .pdict [],
           parseOk := true, valid := true, apply1 := true, apply2 := true,
           advance1 := true, advance2 := true }] 5 =
      { trace := [], statuses := ["running", "failed", "completed"], raised := false } ∧
    (run_once
        [{ observe1 := false, observe2 := false, decideRaises := false,
           raw_action := .pdict [],
           parseOk := true, valid := true, apply1 := true, apply2 := true,
           advance1 := true, advance2 := true }] 5).finalStatus = "completed" := by
  exact ⟨rfl, rfl⟩

/-- C2 (counterexample): when `decide` returns a non-object — here a list —
the run loop raises `TypeError("Agent must return a dictionary action")`
(runner.py line 204) instead of recording a rejected step: no StepRecord is
persisted for the step, the loop does not continue, and the run terminates
with status `failed`, re-raising. -/
theorem C2_counterexample_nondict_aborts_run :
    run_once
        [{ observe1 := true, observe2 := true, decideRaises := false,
           raw_action := .plist [],
           parseOk := true, valid := true, apply1 := true, apply2 := true,
           advance1 := true, advance2 := true },
         { observe1 := true, observe2 := true, decideRaises := false,
           raw_action := .pdict [],
           parseOk := true, valid := true, apply1 := true, apply2 := true,
           advance1 := true, advance2 := true }] 2 =
      { trace := [], statuses := ["running", "failed"], raised := true } := by
  rfl

/-- Every step of an all-invalid-shape script writes one rejected line and
the loop runs to completion. -/
theorem runSteps_shapeInvalid (l : List StepOracle) (i : Nat)
    (h : ∀ o ∈ l, shapeInvalid o) :
    runSteps i l = ((List.range' i l.length).map (fun j => ⟨j, false⟩), .finished) := by
  induction l generalizing i with
  | nil => simp [runSteps]
  | cons o rest ih =>
      obtain ⟨hobs, hdr, hdict, hkey⟩ := h o (by simp)
      have hiter : stepIter o = .wrote false := by
        unfold stepIter
        have h1 : (!o.observe1 && !o.observe2) = false := by
          rcases hobs with h' | h' <;> simp [h']
        have h2 : (!o.raw_action.isDict) = false := by simp [hdict]
        have h3 : (o.raw_action.isList || o.raw_action.hasKey "actions"
            || o.raw_action.hasKey "plan") = true := by
          rcases hkey with h' | h' <;> simp [h']
        simp [h1, hdr, h2, h3]
      rw [runSteps, hiter, ih (i + 1) (fun o' ho' => h o' (by simp [ho']))]
      simp [List.range']

/-- C2 (amended): a dict carrying an `actions` or `plan` key is treated as an
invalid-shape error, not an exception: a rejected StepRecord with
`valid = false` is persisted for that step, the loop continues to the next
step, and a run made only of such steps completes normally without ever
being marked `failed`. A non-object return (list, string, …), however,
raises and aborts the run. -/
theorem C2_invalid_shape_rejected_nondict_raises
    (o : StepOracle) (rest : List StepOracle) (i : Nat)
    (script : List StepOracle) (max_steps : Nat)
    (hobs : o.observe1 = true ∨ o.observe2 = true) :
    (shapeInvalid o →
      runSteps i (o :: rest) =
        (⟨i, false⟩ :: (runSteps (i + 1) rest).1, (runSteps (i + 1) rest).2)) ∧
    ((∀ o' ∈ script, shapeInvalid o') →
      (run_once script max_steps).statuses = ["running", "completed"] ∧
      (run_once script max_steps).raised = false ∧
      (run_once script max_steps).finalStatus = "completed") ∧
    (o.raw_action.isDict = false → runSteps i (o :: rest) = ([], .raised)) := by
  refine ⟨?_, ?_, ?_⟩
  · intro hshape
    obtain ⟨-, hdr, hdict, hkey⟩ := hshape
    have hiter : stepIter o = .wrote false := by
      unfold stepIter
      have h1 : (!o.observe1 && !o.observe2) = false := by
        rcases hobs with h' | h' <;> simp [h']
      have h3 : (o.raw_action.isList || o.raw_action.hasKey "actions"
          || o.raw_action.hasKey "plan") = true := by
        rcases hkey with h' | h' <;> simp [h']
      simp [h1, hdr, hdict, h3]
    rw [runSteps, hiter]
  · intro hall
    have := runSteps_shapeInvalid (script.take max_steps) 0
      (fun o' ho' => hall o' (List.mem_of_mem_take ho'))
    unfold run_once
    rw [this]
    exact ⟨rfl, rfl, rfl⟩
  · intro hnd
    have hiter : stepIter o = .raised := by
      unfold stepIter
      have h1 : (!o.observe1 && !o.observe2) = false := by
        rcases hobs with h' | h' <;> simp [h']
      cases hd : o.decideRaises with
      | true => simp [h1, hd]
      | false => simp [h1, hd, hnd]
    rw [runSteps, hiter]

/-- C2 witness: a run whose single step returns `{"actions": []}` persists a
rejected record at step 0 and completes; one returning a bare list raises. -/
theorem C2_invalid_shape_witness :
    (runSteps 0
        [{ observe1 := true, observe2 := true, decideRaises := false,
           raw_action := .pdict [("actions", .plist [])],
           parseOk := true, valid := true, apply1 := true, apply2 := true,
           advance1 := true, advance2 := true }] =
      ([⟨0, false⟩], .finished)) ∧
    ((run_once
        [{ observe1 := true, observe2 := true, decideRaises := false,
           raw_action := .pdict [("actions", .plist [])],
           parseOk := true, valid := true, apply1 := true, apply2 := true,
           advance1 := true, advance2 := true }] 1).finalStatus = "completed") ∧
    (runSteps 0
        [{ observe1 := true, observe2 := true, decideRaises := false,
           raw_action := .pstr "dig",
           parseOk := true, valid := true, apply1 := true, apply2 := true,
           advance1 := true, advance2 := true }] =
      ([], .raised)) := by
  refine ⟨?_, ?_, ?_⟩
  · exact (C2_invalid_shape_rejected_nondict_raises
      { observe1 := true, observe2 := true, decideRaises := false,
        raw_action := .pdict [("actions", .plist [])],
        parseOk := true, valid := true, apply1 := true, apply2 := true,
        advance1 := true, advance2 := true } [] 0 [] 1 (Or.inl rfl)).1
      ⟨Or.inl rfl, rfl, rfl, Or.inl rfl⟩
  · exact ((C2_invalid_shape_rejected_nondict_raises
      { observe1 := true, observe2 := true, decideRaises := false,
        raw_action := .pdict [("actions", .plist [])],
        parseOk := true, valid := true, apply1 := true, apply2 := true,
        advance1 := true, advance2 := true } [] 0
      [{ observe1 := true, observe2 := true, decideRaises := false,
         raw_action := .pdict [("actions", .plist [])],
         parseOk := true, valid := true, apply1 := true, apply2 := true,
         advance1 := true, advance2 := true }] 1 (Or.inl rfl)).2.1
      (by intro o' ho'; simp only [List.mem_singleton] at ho'; subst ho'
          exact ⟨Or.inl rfl, rfl, rfl, Or.inl rfl⟩)).2.2
  · exact (C2_invalid_shape_rejected_nondict_raises
      { observe1 := true, observe2 := true, decideRaises := false,
        raw_action := .pstr "dig",
        parseOk := true, valid := true, apply1 := true, apply2 := true,
        advance1 := true, advance2 := true } [] 0 [] 1 (Or.inl rfl)).2.2 rfl

/-- C7: on first connection to the registry's backing store, every run
persisted with status `running` and no `ended_at` is reclassified to
`failed` with `ended_at` set to the recovery time, and every run in any
other persisted state — including `running` with `ended_at` already set —
is left entirely unchanged. -/
theorem C7_interrupted_runs_reclassified (now : String) (rows : List RunRow)
    (i : Nat) (h : i < rows.length) :
    (markInterruptedRuns now rows).get ⟨i, by simpa [markInterruptedRuns] using h⟩ =
      (if (rows.get ⟨i, h⟩).status = "running" ∧ (rows.get ⟨i, h⟩).ended_at = none
       then { rows.get ⟨i, h⟩ with status := "failed", ended_at := some now }
       else rows.get ⟨i, h⟩) := by
  have hmap : (markInterruptedRuns now rows).get ⟨i, by simpa [markInterruptedRuns] using h⟩ =
      markInterruptedRow now (rows.get ⟨i, h⟩) := by
    simp [markInterruptedRuns]
  rw [hmap]
  unfold markInterruptedRow
  by_cases hc : (rows.get ⟨i, h⟩).status = "running" ∧ (rows.get ⟨i, h⟩).ended_at = none
  · rw [if_pos hc, if_pos hc, hc.2]
    rfl
  · rw [if_neg hc, if_neg hc]

/-- C7 witness: a two-row table with one interrupted `running` row and one
`completed` row — the first is failed with `ended_at` filled in, the second
untouched. -/
theorem C7_interrupted_runs_witness :
    (markInterruptedRuns "T"
        [{ run_id := "r1", status := "running", step := 3, started_at := some "S",
           ended_at := none, last_score := none, milestones := none },
         { run_id := "r2", status := "completed", step := 5, started_at := some "S",
           ended_at := some "E", last_score := none, milestones := none }]).get
      ⟨0, by simp [markInterruptedRuns]⟩ =
      { run_id := "r1", status := "failed", step := 3, started_at := some "S",
        ended_at := some "T", last_score := none, milestones := none } ∧
    (markInterruptedRuns "T"
        [{ run_id := "r1", status := "running", step := 3, started_at := some "S",
           ended_at := none, last_score := none, milestones := none },
         { run_id := "r2", status := "completed", step := 5, started_at := some "S",
           ended_at := some "E", last_score := none, milestones := none }]).get
      ⟨1, by simp [markInterruptedRuns]⟩ =
      { run_id := "r2", status := "completed", step := 5, started_at := some "S",
        ended_at := some "E", last_score := none, milestones := none } := by
  constructor
  · rw [C7_interrupted_runs_reclassified "T" _ 0 (by simp)]
    rfl
  · rw [C7_interrupted_runs_reclassified "T" _ 1 (by simp)]
    rfl

/-- C8: while a step for a run is marked in flight, a second step request
for the same run (the run not being completed) is rejected immediately with
HTTP 429 "Step already in progress." — the endpoint body is never invoked,
so the rejection leaves the step context (its `step_idx` counter and
`reward_cum`) and the persisted trace exactly unchanged, for every possible
endpoint body. -/
theorem C8_second_step_rejected_429
    (body : StepContext → List PyVal → StepContext × List PyVal)
    (ctx : StepContext) (trace : List PyVal) (now_ms min_period_ms : Int)
    (hin : ctx.inflight = true) (hc : ctx.completed = false)
    (hms : ctx.max_steps = 0 ∨ ctx.step_idx < ctx.max_steps) :
    stepRequest body ctx trace now_ms min_period_ms =
      (ctx, trace, .rejected 429 "Step already in progress.") := by
  have hcond : ¬(ctx.completed = true ∨
      (ctx.max_steps ≠ 0 ∧ ctx.max_steps ≤ ctx.step_idx)) := by
    rintro (h1 | ⟨h2, h3⟩)
    · rw [hc] at h1; cases h1
    · rcases hms with h4 | h4
      · exact h2 h4
      · omega
  have hgate : stepAdmit ctx now_ms min_period_ms =
      (ctx, .rejected 429 "Step already in progress.") := by
    unfold stepAdmit
    rw [if_neg hcond, if_pos hin]
  unfold stepRequest
  rw [hgate]

/-- C8 witness: a concrete in-flight context rejects a second request with
429 and leaves context and trace unchanged, for a body that would otherwise
bump the counter and append a line. -/
theorem C8_second_step_witness :
    stepRequest
      (fun c t => ({ c with step_idx := c.step_idx + 1 }, t ++ [.pnone]))
      { inflight := true, completed := false, max_steps := 5, step_idx := 2,
        last_step_ts_ms := some 1000, reward_cum := 7 }
      [.pnone] 2000 100 =
      ({ inflight := true, completed := false, max_steps := 5, step_idx := 2,
         last_step_ts_ms := some 1000, reward_cum := 7 },
       [.pnone], .rejected 429 "Step already in progress.") := by
  exact C8_second_step_rejected_429 _ _ _ 2000 100 rfl rfl (Or.inr (by decide))

/-- C9: `append_event` on a run with a bound queue pushes the event envelope
into the bounded queue (capacity 512): when the queue is below capacity the
event is appended; when it is full exactly the oldest entry is evicted to
make room; the push itself always produces a queue (never raises), the
length never exceeds the bound, and the surviving contents are a suffix of
the old-events-then-new-event sequence — the most recent events in their
original order. -/
theorem append_event_queues (s : RegState) (runId : String) (e : Evt)
    (q : List Evt) (hq : getAssoc? runId s.queues = some q) :
    (append_event s runId e).queues =
      setAssoc runId (pushBounded queueMaxsize q e) s.queues := by
  unfold append_event
  rw [hq]

/-- Behaviour of the `push()` closure on a queue within its capacity. -/
theorem pushBounded_spec (cap : Nat) (hcap : 0 < cap) (q : List Evt) (p : Evt)
    (hlen : q.length ≤ cap) :
    (q.length < cap → pushBounded cap q p = q ++ [p]) ∧
    (q.length = cap → pushBounded cap q p = q.tail ++ [p]) ∧
    (pushBounded cap q p).length = min (q.length + 1) cap ∧
    (pushBounded cap q p).length ≤ cap ∧
    List.IsSuffix (pushBounded cap q p) (q ++ [p]) := by
  unfold pushBounded
  by_cases hlt : q.length < cap
  · rw [if_pos hlt]
    refine ⟨fun _ => rfl, fun he => absurd he (by omega), ?_, ?_, ⟨[], rfl⟩⟩
    · simp only [List.length_append, List.length_singleton]
      omega
    · simp only [List.length_append, List.length_singleton]
      omega
  · rw [if_neg hlt]
    have hq : q.length = cap := by omega
    cases q with
    | nil => exact absurd hq (by simpa using hcap.ne)
    | cons a rest =>
        refine ⟨fun hl => absurd hl (by omega), fun _ => rfl, ?_, ?_, ⟨[a], rfl⟩⟩
        · simp at hq ⊢
          omega
        · simp at hq ⊢
          omega

theorem C9_append_event_bounded (s : RegState) (runId : String) (e : Evt)
    (q : List Evt) (hq : getAssoc? runId s.queues = some q)
    (hlen : q.length ≤ queueMaxsize) :
    ∃ q', getAssoc? runId (append_event s runId e).queues = some q' ∧
      (q.length < queueMaxsize → q' = q ++ [e]) ∧
      (q.length = queueMaxsize → q' = q.tail ++ [e]) ∧
      q'.length = min (q.length + 1) queueMaxsize ∧
      q'.length ≤ queueMaxsize ∧
      List.IsSuffix q' (q ++ [e]) := by
  obtain ⟨h1, h2, h3, h4, h5⟩ :=
    pushBounded_spec queueMaxsize (by decide) q e hlen
  refine ⟨pushBounded queueMaxsize q e, ?_, h1, h2, h3, h4, h5⟩
  rw [append_event_queues s runId e q hq]
  exact getAssoc?_setAssoc ..

/-- C9 witness: pushing a heartbeat onto a registered one-element queue
appends it, keeps the length within 512, and preserves order. -/
theorem C9_append_event_witness :
    ∃ q', getAssoc? "r1"
        (append_event
          { rows := [], queues := [("r1", [⟨"state", .pnone⟩])] }
          "r1" ⟨"heartbeat", .pnone⟩).queues = some q' ∧
      (([ (⟨"state", .pnone⟩ : Evt) ]).length < queueMaxsize →
        q' = [⟨"state", .pnone⟩, ⟨"heartbeat", .pnone⟩]) ∧
      (([ (⟨"state", .pnone⟩ : Evt) ]).length = queueMaxsize →
        q' = [⟨"heartbeat", .pnone⟩]) ∧
      q'.length = min ([ (⟨"state", .pnone⟩ : Evt) ].length + 1) queueMaxsize ∧
      q'.length ≤ queueMaxsize ∧
      List.IsSuffix q' [⟨"state", .pnone⟩, ⟨"heartbeat", .pnone⟩] := by
  exact C9_append_event_bounded
    { rows := [], queues := [("r1", [⟨"state", .pnone⟩])] }
    "r1" ⟨"heartbeat", .pnone⟩ [⟨"state", .pnone⟩] rfl (by decide)

/-- C10: for a run id with no in-memory queue bound — an unknown id, or a
run restored from SQLite after a restart — `append_event` returns before the
score-extraction branch and has no effect at all: the registry state is
returned unchanged, so even a `score` event updates neither queues nor the
persisted `last_score`/`milestones` metadata. -/
theorem C10_append_event_no_queue_noop (s : RegState) (runId : String)
    (e : Evt) (h : getAssoc? runId s.queues = none) :
    append_event s runId e = s := by
  unfold append_event
  rw [h]

/-- C10 witness: a `score` event for a persisted run whose queue binding was
lost across a restart leaves the whole registry state — including the row's
`last_score` — untouched. -/
theorem C10_append_event_witness :
    append_event
      { rows := [{ run_id := "r1", status := "failed", step := 4,
                   started_at := some "S", ended_at := some "E",
                   last_score := none, milestones := none }],
        queues := [] }
      "r1" ⟨"score", .pdict [("total_score", .pfloat 12)]⟩ =
      { rows := [{ run_id := "r1", status := "failed", step := 4,
                   started_at := some "S", ended_at := some "E",
                   last_score := none, milestones := none }],
        queues := [] } := by
  exact C10_append_event_no_queue_noop _ "r1" _ rfl

/-- The freshly created job satisfies the scheduler invariant. -/
theorem jobInv_create (n p : Nat) : JobInv (JobState.create n p) := by
  refine ⟨le_max_left 1 p, rfl, le_refl 0, le_refl 0, Nat.zero_le n,
    Nat.zero_le _, ?_, ?_⟩
  · intro hx
    exact absurd (show ("pending" : String) = "completed" from hx) (by decide)
  · intro hx
    exact absurd (show ("pending" : String) = "failed" from hx) (by decide)

/-- Every locked block preserves the scheduler invariant. -/
theorem jobStep_inv {s s' : JobState} (h : JobStep s s') (hs : JobInv s) :
    JobInv s' := by
  obtain ⟨hpar, hlen, hcf, hfs, hsn, hcap, hcompl, hfailed⟩ := hs
  cases h with
  | startJob hp =>
      refine ⟨hpar, hlen, hcf, hfs, hsn, hcap, ?_, ?_⟩
      · intro hx
        exact absurd (show ("running" : String) = "completed" from hx) (by decide)
      · intro hx
        exact absurd (show ("running" : String) = "failed" from hx) (by decide)
  | launch h1 h2 h3 h4 =>
      refine ⟨hpar, hlen, hcf, Nat.le_succ_of_le hfs, h3,
        by show s.started + 1 ≤ s.completed + s.parallelism; omega, ?_, ?_⟩
      · intro hx; exact absurd hx h2
      · intro hx; exact absurd hx h1
  | workerSuccess rid hrun =>
      refine ⟨hpar, by simpa using hlen,
        by show s.completed + 1 ≤ s.finished + 1; omega,
        by show s.finished + 1 ≤ s.started; omega, hsn,
        by show s.started ≤ s.completed + 1 + s.parallelism; omega,
        ?_, ?_⟩
      · by_cases hn : s.n ≤ s.completed + 1
        · intro _
          show s.completed + 1 = s.n
          omega
        · show (if s.n ≤ s.completed + 1 then "completed" else s.status) =
              "completed" → s.completed + 1 = s.n
          rw [if_neg hn]
          intro hx
          have := hcompl hx
          omega
      · by_cases hn : s.n ≤ s.completed + 1
        · show (if s.n ≤ s.completed + 1 then "completed" else s.status) =
              "failed" → s.completed + 1 + 1 ≤ s.finished + 1
          rw [if_pos hn]
          intro hx
          exact absurd (show ("completed" : String) = "failed" from hx) (by decide)
        · show (if s.n ≤ s.completed + 1 then "completed" else s.status) =
              "failed" → s.completed + 1 + 1 ≤ s.finished + 1
          rw [if_neg hn]
          intro hx
          have := hfailed hx
          omega
  | workerFailure hrun =>
      refine ⟨hpar, hlen, by show s.completed ≤ s.finished + 1; omega,
        by show s.finished + 1 ≤ s.started; omega, hsn, hcap, ?_, ?_⟩
      · intro hx
        exact absurd (show ("failed" : String) = "completed" from hx) (by decide)
      · intro _
        show s.completed + 1 ≤ s.finished + 1
        omega

/-- `n` and `parallelism` are fixed at job creation and never change. -/
theorem jobStep_const {s s' : JobState} (h : JobStep s s') :
    s'.n = s.n ∧ s'.parallelism = s.parallelism := by
  cases h <;> exact ⟨rfl, rfl⟩

/-- Every reachable job state satisfies the invariant and keeps the created
`n` and capped parallelism. -/
theorem jobReach_inv {n p : Nat} {s : JobState} (h : JobReach n p s) :
    JobInv s ∧ s.n = n ∧ s.parallelism = max 1 p := by
  induction h with
  | refl => exact ⟨jobInv_create n p, rfl, rfl⟩
  | tail hab hbc ih =>
      obtain ⟨hinv, hn, hp⟩ := ih
      obtain ⟨hn', hp'⟩ := jobStep_const hbc
      exact ⟨jobStep_inv hbc hinv, hn' ▸ hn, hp' ▸ hp⟩

/-- C3: in every state reachable by interleaving `start`, `launch_next`, and
worker-completion blocks, the number of runs in flight (started workers
minus finished workers) never exceeds the job's concurrency cap, at most `n`
run ids are ever recorded, and when the job's status is `completed` exactly
`n` run ids have been recorded. -/
theorem C3_concurrency_cap_and_run_count (n p : Nat) (s : JobState)
    (h : JobReach n p s) :
    s.started - s.finished ≤ s.parallelism ∧
    s.run_ids.length ≤ n ∧
    (s.status = "completed" → s.run_ids.length = n) := by
  obtain ⟨⟨hpar, hlen, hcf, hfs, hsn, hcap, hcompl, hfailed⟩, hn, hp⟩ :=
    jobReach_inv h
  refine ⟨by omega, by omega, ?_⟩
  intro hx
  have := hcompl hx
  omega

/-- C3 witness: a `n = 3, parallelism = 2` job driven to completion through
a full interleaving — two initial launches, a completion that relaunches,
and two tail completions — satisfies the cap and records exactly 3 ids. -/
theorem C3_concurrency_witness :
    ({ n := 3, parallelism := 2, status := "completed",
       run_ids := ["a", "b", "c"], started := 3, completed := 3,
       finished := 3 } : JobState).started -
      ({ n := 3, parallelism := 2, status := "completed",
         run_ids := ["a", "b", "c"], started := 3, completed := 3,
         finished := 3 } : JobState).finished ≤
      ({ n := 3, parallelism := 2, status := "completed",
         run_ids := ["a", "b", "c"], started := 3, completed := 3,
         finished := 3 } : JobState).parallelism ∧
    ({ n := 3, parallelism := 2, status := "completed",
       run_ids := ["a", "b", "c"], started := 3, completed := 3,
       finished := 3 } : JobState).run_ids.length ≤ 3 ∧
    (({ n := 3, parallelism := 2, status := "completed",
        run_ids := ["a", "b", "c"], started := 3, completed := 3,
        finished := 3 } : JobState).status = "completed" →
      ({ n := 3, parallelism := 2, status := "completed",
         run_ids := ["a", "b", "c"], started := 3, completed := 3,
         finished := 3 } : JobState).run_ids.length = 3) := by
  refine C3_concurrency_cap_and_run_count 3 2 _ ?_
  have h0 : JobReach 3 2 (JobState.create 3 2) := .refl
  have h1 := h0.tail (JobStep.startJob _ rfl)
  have h2 := h1.tail (JobStep.launch _ (by decide) (by decide) (by decide) (by decide))
  have h3 := h2.tail (JobStep.launch _ (by decide) (by decide) (by decide) (by decide))
  have h4 := h3.tail (JobStep.workerSuccess _ "a" (by decide))
  have h5 := h4.tail (JobStep.launch _ (by decide) (by decide) (by decide) (by decide))
  have h6 := h5.tail (JobStep.workerSuccess _ "b" (by decide))
  have h7 := h6.tail (JobStep.workerSuccess _ "c" (by decide))
  exact h7

/-- C4 (counterexample): the worker checks `run_id is None`, not Python
falsiness — a run factory that returns the falsy run id `""` takes the
success branch, so a `n = 1` job whose only worker returned `""` reaches
status `completed` with `run_ids = [""]`, and is never marked `failed`,
contradicting the claim that a falsy factory result fails the job. -/
theorem C4_counterexample_falsy_run_id :
    JobReach 1 1
      { n := 1, parallelism := 1, status := "completed", run_ids := [""],
        started := 1, completed := 1, finished := 1 } ∧
    ({ n := 1, parallelism := 1, status := "completed", run_ids := [""],
       started := 1, completed := 1, finished := 1 } : JobState).status ≠
      "failed" := by
  constructor
  · have h0 : JobReach 1 1 (JobState.create 1 1) := .refl
    have h1 := h0.tail (JobStep.startJob _ rfl)
    have h2 := h1.tail (JobStep.launch _ (by decide) (by decide) (by decide) (by decide))
    have h3 := h2.tail (JobStep.workerSuccess _ "" (by decide))
    exact h3
  · decide

/-- C4 (amended): once a worker's run factory raises — the job having been
marked `failed` — the failure is permanent: in every state reachable from a
failed state, the status is still `failed` (in particular it never becomes
`completed`), and `started` never grows, i.e. no `launch_next` call after
the failure launches a new worker; workers already running may still run
their completion block without triggering a launch. -/
theorem C4_failed_is_permanent (n p : Nat) (s s' : JobState)
    (hreach : JobReach n p s) (hfail : s.status = "failed")
    (hsteps : Relation.ReflTransGen JobStep s s') :
    s'.status = "failed" ∧ s'.started = s.started := by
  have hinv : JobInv s := (jobReach_inv hreach).1
  have key : ∀ t t', JobInv t → t.status = "failed" → JobStep t t' →
      JobInv t' ∧ t'.status = "failed" ∧ t'.started = t.started := by
    intro t t' hti htf hstep
    refine ⟨jobStep_inv hstep hti, ?_⟩
    obtain ⟨hpar, hlen, hcf, hfs, hsn, hcap, hcompl, hfailed⟩ := hti
    cases hstep with
    | startJob hp =>
        rw [htf] at hp
        exact absurd hp (by decide)
    | launch h1 h2 h3 h4 => exact absurd htf h1
    | workerSuccess rid hrun =>
        have hgap := hfailed htf
        have hn : ¬ t.n ≤ t.completed + 1 := by omega
        constructor
        · show (if t.n ≤ t.completed + 1 then "completed" else t.status) =
              "failed"
          rw [if_neg hn]
          exact htf
        · rfl
    | workerFailure hrun => exact ⟨rfl, rfl⟩
  have main : ∀ s', Relation.ReflTransGen JobStep s s' →
      JobInv s' ∧ s'.status = "failed" ∧ s'.started = s.started := by
    intro s' hs'
    induction hs' with
    | refl => exact ⟨hinv, hfail, rfl⟩
    | tail hab hbc ih =>
        obtain ⟨hi, hf, hst⟩ := ih
        obtain ⟨hi', hf', hst'⟩ := key _ _ hi hf hbc
        exact ⟨hi', hf', hst' ▸ hst⟩
  exact ⟨(main s' hsteps).2.1, (main s' hsteps).2.2⟩

/-- C4 witness: a `n = 2, parallelism = 2` job whose first worker raised is
`failed`; a late success of the second, already-running worker still leaves
it `failed` with no new launch. -/
theorem C4_failed_witness :
    ({ n := 2, parallelism := 2, status := "failed", run_ids := ["x"],
       started := 2, completed := 1, finished := 2 } : JobState).status =
      "failed" ∧
    ({ n := 2, parallelism := 2, status := "failed", run_ids := ["x"],
       started := 2, completed := 1, finished := 2 } : JobState).started =
      ({ n := 2, parallelism := 2, status := "failed", run_ids := [],
         started := 2, completed := 0, finished := 1 } : JobState).started := by
  refine C4_failed_is_permanent 2 2
    { n := 2, parallelism := 2, status := "failed", run_ids := [],
      started := 2, completed := 0, finished := 1 } _ ?_ rfl ?_
  · have h0 : JobReach 2 2 (JobState.create 2 2) := .refl
    have h1 := h0.tail (JobStep.startJob _ rfl)
    have h2 := h1.tail (JobStep.launch _ (by decide) (by decide) (by decide) (by decide))
    have h3 := h2.tail (JobStep.launch _ (by decide) (by decide) (by decide) (by decide))
    have h4 := h3.tail (JobStep.workerFailure _ (by decide))
    exact h4
  · exact Relation.ReflTransGen.single (JobStep.workerSuccess _ "x" (by decide))

/-- Refilling never changes the configured rate. -/
theorem refill_rps (b : TokenBucket) (now : ℚ) :
    (b.refill now).refill_per_s = b.refill_per_s := by
  unfold TokenBucket.refill
  split <;> rfl

/-- Refilling when no time has elapsed is the identity. -/
theorem refill_stationary (b : TokenBucket) (now : ℚ)
    (h : now - b.updated_at ≤ 0) : b.refill now = b := by
  unfold TokenBucket.refill
  rw [if_pos (max_le le_rfl h)]

/-- Refilling after a positive elapsed interval tops the bucket up
proportionally and stamps the refill time. -/
theorem refill_forward (b : TokenBucket) (now : ℚ)
    (h : 0 < now - b.updated_at) :
    b.refill now =
      { b with
        tokens := min b.capacity
          (b.tokens + (now - b.updated_at) * b.refill_per_s),
        updated_at := now } := by
  unfold TokenBucket.refill
  rw [if_neg (not_le.mpr (lt_max_iff.mpr (Or.inr h))), max_eq_right h.le]

/-- A call finding at least one refilled token is granted with no retry
hint. -/
theorem take_grant (b : TokenBucket) (now : ℚ)
    (h : 1 ≤ (b.refill now).tokens) : (b.take 1 now).1 = (true, 0) := by
  unfold TokenBucket.take
  rw [if_pos h]

/-- A call finding less than one refilled token is refused with a positive
retry hint and leaves the refilled bucket's tokens unchanged. -/
theorem take_refuse (b : TokenBucket) (now : ℚ)
    (h : (b.refill now).tokens < 1) :
    (b.take 1 now).1.1 = false ∧ 0 < (b.take 1 now).1.2 ∧
      (b.take 1 now).2 = b.refill now := by
  unfold TokenBucket.take
  rw [if_neg (not_le.mpr h)]
  exact ⟨rfl, lt_max_iff.mpr (Or.inl (by norm_num)), rfl⟩

/-- C6: the rate limiter is a per-(bucket, client) token bucket. On each
call it refills to `min(capacity, tokens + elapsed * refill_per_s)` from the
wall time since the last refill, then withdraws exactly 1 token: with a
token available it returns `(true, 0.0)` and the remaining tokens drop by 1,
otherwise `(false, retry)` with `retry = max(0.1, shortfall / refill_per_s)`,
hence strictly positive. With `capacity = 1, refill_per_s = 1`, two `allow`
calls within one second are granted then refused, and a third call at least
one second later is granted again. -/
theorem C6_token_bucket_rate_limiter (b : TokenBucket) (now : ℚ)
    (hr : 0 < b.refill_per_s) (hcap : b.tokens ≤ b.capacity)
    (t1 t2 t3 : ℚ) (h12 : t1 ≤ t2) (h2lt : t2 < t1 + 1) (h3 : t2 + 1 ≤ t3) :
    ((b.refill now).tokens =
      min b.capacity (b.tokens + max 0 (now - b.updated_at) * b.refill_per_s)) ∧
    ((b.take 1 now).1 =
      if 1 ≤ (b.refill now).tokens then (true, 0)
      else (false, max (1/10) ((1 - (b.refill now).tokens) / b.refill_per_s))) ∧
    ((b.take 1 now).2.tokens =
      if 1 ≤ (b.refill now).tokens then (b.refill now).tokens - 1
      else (b.refill now).tokens) ∧
    ((b.take 1 now).1.1 = false → 0 < (b.take 1 now).1.2) ∧
    ((RateLimiter.allow [] "step" "c" 1 1 t1).1.1 = true ∧
     (RateLimiter.allow
        (RateLimiter.allow [] "step" "c" 1 1 t1).2 "step" "c" 1 1 t2).1.1 =
       false ∧
     0 < (RateLimiter.allow
        (RateLimiter.allow [] "step" "c" 1 1 t1).2 "step" "c" 1 1 t2).1.2 ∧
     (RateLimiter.allow
        (RateLimiter.allow
          (RateLimiter.allow [] "step" "c" 1 1 t1).2 "step" "c" 1 1 t2).2
        "step" "c" 1 1 t3).1.1 = true) := by
  refine ⟨?_, ?_, ?_, ?_, ?_⟩
  · by_cases h : now - b.updated_at ≤ 0
    · rw [refill_stationary b now h,
        show max 0 (now - b.updated_at) = 0 from max_eq_left h,
        zero_mul, add_zero, min_eq_right hcap]
    · rw [refill_forward b now (by linarith), max_eq_right (by linarith)]
  · unfold TokenBucket.take
    by_cases h : (1:ℚ) ≤ (b.refill now).tokens
    · rw [if_pos h, if_pos h]
    · rw [if_neg h, if_neg h, refill_rps, if_pos hr]
  · unfold TokenBucket.take
    by_cases h : (1:ℚ) ≤ (b.refill now).tokens
    · rw [if_pos h, if_pos h]
    · rw [if_neg h, if_neg h]
  · intro hx
    unfold TokenBucket.take at hx ⊢
    by_cases h : (1:ℚ) ≤ (b.refill now).tokens
    · rw [if_pos h] at hx
      cases hx
    · rw [if_neg h]
      exact lt_max_iff.mpr (Or.inl (by norm_num))
  · -- the capacity = 1, refill_per_s = 1 scenario
    have hfor1 : bucketFor [] ("step", "c") 1 1 t1 = ⟨1, 1, 1, t1⟩ := by
      simp [bucketFor, getAssoc?, freshBucket]
    have hrefill1 : TokenBucket.refill ⟨1, 1, 1, t1⟩ t1 = ⟨1, 1, 1, t1⟩ :=
      refill_stationary _ _ (by simp)
    have htake1 : TokenBucket.take ⟨1, 1, 1, t1⟩ 1 t1 =
        ((true, 0), ⟨1, 0, 1, t1⟩) := by
      unfold TokenBucket.take
      rw [hrefill1, if_pos le_rfl]
      norm_num
    have hst1 : (RateLimiter.allow [] "step" "c" 1 1 t1).2 =
        [(("step", "c"), ⟨1, 0, 1, t1⟩)] := by
      show setAssoc ("step", "c")
        ((bucketFor [] ("step", "c") 1 1 t1).take 1 t1).2 [] = _
      rw [hfor1, htake1]
      rfl
    have hfor2 : bucketFor [(("step", "c"), ⟨1, 0, 1, t1⟩)]
        ("step", "c") 1 1 t2 = ⟨1, 0, 1, t1⟩ := by
      simp [bucketFor, getAssoc?]
    refine ⟨?_, ?_, ?_, ?_⟩
    · show ((bucketFor [] ("step", "c") 1 1 t1).take 1 t1).1.1 = true
      rw [hfor1, htake1]
    · show ((bucketFor (RateLimiter.allow [] "step" "c" 1 1 t1).2
        ("step", "c") 1 1 t2).take 1 t2).1.1 = false
      rw [hst1, hfor2]
      refine (take_refuse _ _ ?_).1
      rcases le_or_lt t2 t1 with hE | hE
      · rw [refill_stationary _ _ (by show t2 - t1 ≤ 0; linarith)]
        norm_num
      · rw [refill_forward _ _ (by show (0:ℚ) < t2 - t1; linarith)]
        show min 1 ((0:ℚ) + (t2 - t1) * 1) < 1
        rw [zero_add, mul_one]
        exact min_lt_iff.mpr (Or.inr (by linarith))
    · show 0 < ((bucketFor (RateLimiter.allow [] "step" "c" 1 1 t1).2
        ("step", "c") 1 1 t2).take 1 t2).1.2
      rw [hst1, hfor2]
      refine (take_refuse _ _ ?_).2.1
      rcases le_or_lt t2 t1 with hE | hE
      · rw [refill_stationary _ _ (by show t2 - t1 ≤ 0; linarith)]
        norm_num
      · rw [refill_forward _ _ (by show (0:ℚ) < t2 - t1; linarith)]
        show min 1 ((0:ℚ) + (t2 - t1) * 1) < 1
        rw [zero_add, mul_one]
        exact min_lt_iff.mpr (Or.inr (by linarith))
    · show ((bucketFor (RateLimiter.allow
          (RateLimiter.allow [] "step" "c" 1 1 t1).2 "step" "c" 1 1 t2).2
          ("step", "c") 1 1 t3).take 1 t3).1.1 = true
      have hst2 : (RateLimiter.allow
          (RateLimiter.allow [] "step" "c" 1 1 t1).2 "step" "c" 1 1 t2).2 =
          [(("step", "c"),
            (TokenBucket.take ⟨1, 0, 1, t1⟩ 1 t2).2)] := by
        show setAssoc ("step", "c")
          ((bucketFor (RateLimiter.allow [] "step" "c" 1 1 t1).2
            ("step", "c") 1 1 t2).take 1 t2).2
          (RateLimiter.allow [] "step" "c" 1 1 t1).2 = _
        rw [hst1, hfor2]
        rfl
      rw [hst2]
      rcases le_or_lt t2 t1 with hE | hE
      · have hb2 : (TokenBucket.take ⟨1, 0, 1, t1⟩ 1 t2).2 = ⟨1, 0, 1, t1⟩ := by
          have := take_refuse ⟨1, 0, 1, t1⟩ t2 (by
            rw [refill_stationary _ _ (by show t2 - t1 ≤ 0; linarith)]
            norm_num)
          rw [this.2.2, refill_stationary _ _ (by show t2 - t1 ≤ 0; linarith)]
        rw [hb2]
        have hfor3 : bucketFor [(("step", "c"), ⟨1, 0, 1, t1⟩)]
            ("step", "c") 1 1 t3 = ⟨1, 0, 1, t1⟩ := by
          simp [bucketFor, getAssoc?]
        rw [hfor3]
        have hgrant := take_grant ⟨1, 0, 1, t1⟩ t3 (by
          rw [refill_forward _ _ (by show (0:ℚ) < t3 - t1; linarith)]
          show (1:ℚ) ≤ min 1 (0 + (t3 - t1) * 1)
          rw [zero_add, mul_one]
          exact le_min le_rfl (by linarith))
        rw [hgrant]
      · have hb2 : (TokenBucket.take ⟨1, 0, 1, t1⟩ 1 t2).2 =
            ⟨1, min 1 ((0:ℚ) + (t2 - t1) * 1), 1, t2⟩ := by
          have := take_refuse ⟨1, 0, 1, t1⟩ t2 (by
            rw [refill_forward _ _ (by show (0:ℚ) < t2 - t1; linarith)]
            show min 1 ((0:ℚ) + (t2 - t1) * 1) < 1
            rw [zero_add, mul_one]
            exact min_lt_iff.mpr (Or.inr (by linarith)))
          rw [this.2.2, refill_forward _ _ (by show (0:ℚ) < t2 - t1; linarith)]
        rw [hb2]
        have hfor3 : bucketFor
            [(("step", "c"), ⟨1, min 1 ((0:ℚ) + (t2 - t1) * 1), 1, t2⟩)]
            ("step", "c") 1 1 t3 =
            ⟨1, min 1 ((0:ℚ) + (t2 - t1) * 1), 1, t2⟩ := by
          simp [bucketFor, getAssoc?]
        rw [hfor3]
        have hgrant := take_grant ⟨1, min 1 ((0:ℚ) + (t2 - t1) * 1), 1, t2⟩ t3 (by
          rw [refill_forward _ _ (by show (0:ℚ) < t3 - t2; linarith)]
          show (1:ℚ) ≤ min 1 (min 1 ((0:ℚ) + (t2 - t1) * 1) + (t3 - t2) * 1)
          rw [zero_add, mul_one, mul_one,
            min_eq_right (by linarith : t2 - t1 ≤ 1)]
          exact le_min le_rfl (by linarith))
        rw [hgrant]

/-- C6 witness: a concrete bucket and the times `0, 1/2, 2`: the general
equations hold and the three-call scenario grants, refuses with a positive
retry hint, then grants again. -/
theorem C6_token_bucket_witness :
    (RateLimiter.allow [] "step" "c" 1 1 0).1.1 = true ∧
    (RateLimiter.allow
        (RateLimiter.allow [] "step" "c" 1 1 0).2 "step" "c" 1 1 (1/2)).1.1 =
      false ∧
    0 < (RateLimiter.allow
        (RateLimiter.allow [] "step" "c" 1 1 0).2 "step" "c" 1 1 (1/2)).1.2 ∧
    (RateLimiter.allow
        (RateLimiter.allow
          (RateLimiter.allow [] "step" "c" 1 1 0).2 "step" "c" 1 1 (1/2)).2
        "step" "c" 1 1 2).1.1 = true := by
  exact (C6_token_bucket_rate_limiter ⟨1, 1, 1, 0⟩ 0 (by norm_num)
    (by norm_num) 0 (1/2) 2 (by norm_num) (by norm_num) (by norm_num)).2.2.2.2

end Theorems

end FortGym
